import Mathlib

/-!
Verification of the osm-fourmore ingestion pipeline against its design
specification.

The development shallowly embeds the Python sources:
  * `data-pipeline/src/osm_processor.py` (streaming producer, classifier,
    geometry reduction, batch loader),
  * `backend/app/pipeline/osm_processor.py` (same classifier and extraction
    code), and
  * `fourmore_shared/category_mapping.py` (rule-set validation).

Tag sets are embedded as association lists `List (String × String)`: a
Python `dict` is such a list with pairwise distinct keys, and the list
order is the dict's (insertion-determined) iteration order.  Latitudes and
longitudes are carried as integers: the geometry code only ever selects a
vertex, it performs no coordinate arithmetic, so any value type is
faithful and the spec's test vectors are integral.
-/

namespace FourMore

/-- The hard-coded `POI_CATEGORIES` table of `osm_processor.py`
(identical in both copies of the file): an association list from tag key
to an association list from tag value to category class. -/
def POI_CATEGORIES : List (String × List (String × String)) :=
  [ ("amenity",
      [ ("restaurant", "food"), ("cafe", "food"), ("bar", "food"),
        ("pub", "food"), ("fast_food", "food"), ("food_court", "food"),
        ("ice_cream", "food"),
        ("bank", "finance"), ("atm", "finance"),
        ("hospital", "healthcare"), ("clinic", "healthcare"),
        ("pharmacy", "healthcare"), ("dentist", "healthcare"),
        ("veterinary", "healthcare"),
        ("school", "education"), ("university", "education"),
        ("college", "education"), ("library", "education"),
        ("fuel", "automotive"), ("parking", "automotive"),
        ("car_wash", "automotive"), ("car_repair", "automotive"),
        ("place_of_worship", "religion"),
        ("theatre", "entertainment"), ("cinema", "entertainment"),
        ("nightclub", "entertainment"), ("casino", "entertainment"),
        ("police", "government"), ("fire_station", "government"),
        ("post_office", "government"), ("townhall", "government"),
        ("courthouse", "government") ]),
    ("shop",
      [ ("supermarket", "retail"), ("convenience", "retail"),
        ("department_store", "retail"), ("mall", "retail"),
        ("clothes", "retail"), ("shoes", "retail"),
        ("electronics", "retail"), ("books", "retail"),
        ("bakery", "food"), ("butcher", "food"), ("seafood", "food"),
        ("greengrocer", "food"),
        ("hairdresser", "services"), ("beauty", "services"),
        ("laundry", "services"), ("dry_cleaning", "services") ]),
    ("tourism",
      [ ("hotel", "accommodation"), ("motel", "accommodation"),
        ("hostel", "accommodation"), ("guest_house", "accommodation"),
        ("museum", "attractions"), ("gallery", "attractions"),
        ("zoo", "attractions"), ("theme_park", "attractions"),
        ("attraction", "attractions"), ("viewpoint", "attractions"),
        ("information", "tourism") ]),
    ("leisure",
      [ ("park", "recreation"), ("playground", "recreation"),
        ("sports_centre", "recreation"), ("swimming_pool", "recreation"),
        ("golf_course", "recreation"), ("fitness_centre", "recreation"),
        ("stadium", "recreation") ]) ]

/-- Embedding of `_categorize_poi(tags)`.  The Python code iterates
`tags.items()` — the tag dict's own iteration order, which the list order
represents — and for the first key present in `POI_CATEGORIES` returns
either the mapped class (when the value is in the key's value map) or the
raw key itself, with the raw value as subcategory.  The Python function
returns `(None, None)` when no key is recognized; that case is `none`
here, and the matched case `some (category, subcategory)`. -/
def categorizePoi : List (String × String) → Option (String × String)
  | [] => none
  | (tagKey, tagValue) :: rest =>
    match POI_CATEGORIES.lookup tagKey with
    | some categoryMap =>
      match categoryMap.lookup tagValue with
      | some cls => some (cls, tagValue)
      | none => some (tagKey, tagValue)
    | none => categorizePoi rest

/-- The first entry of the tag list whose key appears in
`POI_CATEGORIES` — the entry `_categorize_poi` acts on. -/
def firstRecognized : List (String × String) → Option (String × String)
  | [] => none
  | (tagKey, tagValue) :: rest =>
    if (POI_CATEGORIES.lookup tagKey).isSome then some (tagKey, tagValue)
    else firstRecognized rest

/-- Embedding of the `POIData` dataclass of `osm_processor.py`.
Latitude/longitude are carried as integers (the code never computes with
them, it only copies vertex values). -/
structure POIData where
  osm_id : String
  osm_type : String
  name : Option String
  category : String
  subcategory : Option String
  lat : Int
  lon : Int
  tags : List (String × String)
  address : Option String
  phone : Option String
  website : Option String
  opening_hours : Option String
  deriving DecidableEq

/-- A member node of a way as the producer sees it: its node reference,
whether its location is valid (`n.location.valid()` — false when the node
lies outside the loaded extract), and its coordinate. -/
structure WayNode where
  ref : Int
  valid : Bool
  lat : Int
  lon : Int
  deriving DecidableEq

/-- A map element yielded by the (external) extract decoder: node, way or
relation, a closed tagged union as in the source dispatch
(`obj.is_node()` / `obj.is_way()` / otherwise ignored). -/
inductive OsmObj where
  | node (id : Int) (tags : List (String × String)) (lat lon : Int)
  | way (id : Int) (tags : List (String × String)) (nodes : List WayNode)
  | relation (id : Int) (tags : List (String × String))
  deriving DecidableEq

/-- The tag set attached to an element (`obj.tags`). -/
def OsmObj.tags : OsmObj → List (String × String)
  | .node _ t _ _ => t
  | .way _ t _ => t
  | .relation _ t => t

/-- Embedding of Python `', '.join`-style joining used for addresses. -/
def joinWith (sep : String) : List String → String
  | [] => ""
  | [x] => x
  | x :: xs => x ++ sep ++ joinWith sep xs

/-- Embedding of the address assembly shared by all extraction functions:
collect `addr:housenumber`, `addr:street`, `addr:city`, `addr:postcode`
in that fixed order, keep only present tags, comma-join, `None` when all
are absent. -/
def extractAddress (tags : List (String × String)) : Option String :=
  let parts := ["addr:housenumber", "addr:street", "addr:city",
      "addr:postcode"].filterMap (fun k => tags.lookup k)
  if parts.isEmpty then none else some (joinWith ", " parts)

/-- Modelled from the spec: `way.is_closed()` is provided by the external
osmium library; per §3 of the spec a way is closed when its first and
last vertex coincide (same node reference). -/
def wayIsClosed (nodes : List WayNode) : Bool :=
  match nodes.head?, nodes.getLast? with
  | some a, some b => a.ref == b.ref
  | _, _ => false

/-- Modelled from the spec: `osmium.geom.WKTFactory.create_polygon` is an
external library call that renders the way's exterior ring as a WKT
`POLYGON` string of `lon lat` pairs.  Per §4.2 the exterior ring is the
way's ordered vertex chain, and constructing a degenerate shape (an
unclosed chain, or a closed ring of fewer than four entries) raises,
which the caller turns into a drop.  We model the rendered-then-reparsed
coordinate sequence directly as a list of `(lon, lat)` pairs. -/
def createPolygon (nodes : List WayNode) : Option (List (Int × Int)) :=
  if wayIsClosed nodes ∧ 4 ≤ nodes.length then
    some (nodes.map (fun n => (n.lon, n.lat)))
  else none

/-- Modelled from the spec: `osmium.geom.WKTFactory.create_linestring`
renders the way's ordered vertex chain as a WKT `LINESTRING` of
`lon lat` pairs; a degenerate chain of fewer than two vertices raises
(§4.2: failure constructing the shape makes the element unresolvable). -/
def createLinestring (nodes : List WayNode) : Option (List (Int × Int)) :=
  if 2 ≤ nodes.length then some (nodes.map (fun n => (n.lon, n.lat)))
  else none

/-- Embedding of `_extract_centroid_from_wkt(wkt_geom, geom_type)`.  The
Python function slices the WKT string back into its coordinate sequence
(`wkt_geom[9:-2]` / `wkt_geom[11:-1]` followed by splitting on commas and
whitespace); we operate on that coordinate sequence directly.  For a
`POLYGON` it takes the first vertex of the exterior ring
(`coords_str.split(',')[0]`, an exception on an empty ring), for a
`LINESTRING` the vertex at index `len(coords_list) // 2` (an exception on
an empty chain), any other type raises; each WKT pair is `lon lat` and the
function returns `(lat, lon)`. -/
def extractCentroidFromWkt (geomType : String) (coords : List (Int × Int)) :
    Option (Int × Int) :=
  if geomType = "POLYGON" then
    match coords.head? with
    | some (lon, lat) => some (lat, lon)
    | none => none
  else if geomType = "LINESTRING" then
    match coords[coords.length / 2]? with
    | some (lon, lat) => some (lat, lon)
    | none => none
  else none

/-- The area-key test of the way extraction:
`any(k in tags for k in ['building', 'landuse', 'leisure', 'amenity'])`. -/
def areaTagged (tags : List (String × String)) : Bool :=
  ["building", "landuse", "leisure", "amenity"].any
    (fun k => (tags.lookup k).isSome)

/-- Embedding of `_extract_poi_from_node_optimized`: builds the POI
record for a node (the `name` tag is present by the caller's guard). -/
def extractPoiFromNodeOptimized (id : Int) (tags : List (String × String))
    (lat lon : Int) (category subcategory : String) : Option POIData :=
  some { osm_id := toString id, osm_type := "node",
         name := tags.lookup "name", category,
         subcategory := some subcategory, lat, lon, tags,
         address := extractAddress tags, phone := tags.lookup "phone",
         website := tags.lookup "website",
         opening_hours := tags.lookup "opening_hours" }

/-- Embedding of `_extract_poi_from_way_optimized`: reject the way if any
member node's location is invalid; treat it as a polygon when it is
closed and carries an area-indicating tag, otherwise as a linestring;
reduce the geometry with `_extract_centroid_from_wkt`; any construction
failure returns `None`. -/
def extractPoiFromWayOptimized (id : Int) (nodes : List WayNode)
    (tags : List (String × String)) (category subcategory : String) :
    Option POIData :=
  if nodes.all (fun n => n.valid) then
    let coordOpt :=
      if wayIsClosed nodes && areaTagged tags then
        match createPolygon nodes with
        | some cs => extractCentroidFromWkt "POLYGON" cs
        | none => none
      else
        match createLinestring nodes with
        | some cs => extractCentroidFromWkt "LINESTRING" cs
        | none => none
    match coordOpt with
    | none => none
    | some (lat, lon) =>
      some { osm_id := toString id, osm_type := "way",
             name := tags.lookup "name", category,
             subcategory := some subcategory, lat, lon, tags,
             address := extractAddress tags, phone := tags.lookup "phone",
             website := tags.lookup "website",
             opening_hours := tags.lookup "opening_hours" }
  else none

/-- Embedding of `_optimize_poi_extraction(obj, wkt_factory)`: fast
pre-check that some `POI_CATEGORIES` key occurs among the element's tags,
then the `name` presence check, then classification, then per-type
extraction (relations yield nothing). -/
def optimizePoiExtraction (obj : OsmObj) : Option POIData :=
  if POI_CATEGORIES.any (fun e => (obj.tags.lookup e.1).isSome) then
    if (obj.tags.lookup "name").isSome then
      match categorizePoi obj.tags with
      | none => none
      | some (category, subcategory) =>
        match obj with
        | .node id tags lat lon =>
          extractPoiFromNodeOptimized id tags lat lon category subcategory
        | .way id tags nodes =>
          extractPoiFromWayOptimized id nodes tags category subcategory
        | .relation _ _ => none
    else none
  else none

/-- Embedding of the backend's `_extract_poi_from_node(node, wkt_factory)`
(`backend/app/pipeline/osm_processor.py`): classify first, then reject
elements lacking a `name` tag, then build the record. -/
def extractPoiFromNode (id : Int) (tags : List (String × String))
    (lat lon : Int) : Option POIData :=
  match categorizePoi tags with
  | none => none
  | some (category, subcategory) =>
    if (tags.lookup "name").isSome then
      some { osm_id := toString id, osm_type := "node",
             name := tags.lookup "name", category,
             subcategory := some subcategory, lat, lon, tags,
             address := extractAddress tags, phone := tags.lookup "phone",
             website := tags.lookup "website",
             opening_hours := tags.lookup "opening_hours" }
    else none

/-- Embedding of the generator loop of `_process_osm_batches`: walk the
element stream once, extract each element, append survivors to the
current buffer, yield the buffer whenever it has reached `batch_size`,
and yield the final partial buffer when non-empty. -/
def osmBatchLoop (batchSize : Nat) (currentBatch : List POIData) :
    List OsmObj → List (List POIData)
  | [] => if currentBatch.isEmpty then [] else [currentBatch]
  | obj :: rest =>
    match optimizePoiExtraction obj with
    | none => osmBatchLoop batchSize currentBatch rest
    | some poi =>
      let newBatch := currentBatch ++ [poi]
      if batchSize ≤ newBatch.length then
        newBatch :: osmBatchLoop batchSize [] rest
      else osmBatchLoop batchSize newBatch rest

/-- `_process_osm_batches(file_path, poi_keys, batch_size)` started on an
empty buffer.  (The osmium `EmptyTagFilter`/`KeyFilter` pre-filters only
discard elements `_optimize_poi_extraction` rejects anyway, so the
element list stands for the decoded stream.) -/
def processOsmBatches (objs : List OsmObj) (batchSize : Nat) :
    List (List POIData) :=
  osmBatchLoop batchSize [] objs

/-- The pure batching skeleton of `osmBatchLoop`, over an already
extracted record sequence; used to relate the generator to take/drop
reasoning. -/
def chunkLoop {α : Type} (batchSize : Nat) (currentBatch : List α) :
    List α → List (List α)
  | [] => if currentBatch.isEmpty then [] else [currentBatch]
  | x :: rest =>
    let newBatch := currentBatch ++ [x]
    if batchSize ≤ newBatch.length then
      newBatch :: chunkLoop batchSize [] rest
    else chunkLoop batchSize newBatch rest

/-- Outcome of a run of `process_osm_file_streaming`: either the run
completed, or it aborted (the exception propagated after `db.rollback()`),
in both cases with the rows the destination store has committed. -/
inductive RunOutcome where
  | success (committed : List POIData)
  | aborted (committed : List POIData)
  deriving DecidableEq

/-- Embedding of the load loop of `process_osm_file_streaming`: each
non-empty batch is bulk-inserted and committed by
`_save_poi_batch_to_db`; each commit is atomic.  `failAt = some k` means
the destination-store write of the k-th attempted batch save (0-based)
fails: that batch's transaction rolls back — committed rows are
untouched — and the exception aborts the run. -/
def streamLoad (committed : List POIData) :
    List (List POIData) → Option Nat → RunOutcome
  | [], _ => .success committed
  | batch :: rest, failAt =>
    if batch.isEmpty then streamLoad committed rest failAt
    else
      match failAt with
      | some 0 => .aborted committed
      | some (n + 1) => streamLoad (committed ++ batch) rest (some n)
      | none => streamLoad (committed ++ batch) rest none

/-- The initial `db.query(POI).delete(); db.commit()` of
`process_osm_file_streaming`: a full delete of all existing POI rows,
committed on its own. -/
def deleteAllPois (previousRows : List POIData) : List POIData := []

/-- Embedding of `process_osm_file_streaming(file_path, batch_size)`
against a destination store currently holding `prev`: clear everything,
then stream the generator's batches through the loader.  `failAt` injects
an optional destination write failure (`none` = no failure). -/
def processOsmFileStreaming (prev : List POIData) (objs : List OsmObj)
    (batchSize : Nat) (failAt : Option Nat) : RunOutcome :=
  streamLoad (deleteAllPois prev) (processOsmBatches objs batchSize) failAt

/-- The destination store's committed rows after a run. -/
def committedOf : RunOutcome → List POIData
  | .success db => db
  | .aborted db => db

/-- Concrete closed ring for the C8 witness: the spec's test vector
`[(0,0), (1,0), (1,1), (0,1), (0,0)]`, all vertices valid. -/
def closedRingNodes : List WayNode :=
  [⟨0, true, 0, 0⟩, ⟨1, true, 1, 0⟩, ⟨2, true, 1, 1⟩,
   ⟨3, true, 0, 1⟩, ⟨0, true, 0, 0⟩]

/-- Concrete 5-vertex open chain for the C9 witness. -/
def openChainNodes : List WayNode :=
  [⟨0, true, 10, 20⟩, ⟨1, true, 11, 21⟩, ⟨2, true, 12, 22⟩,
   ⟨3, true, 13, 23⟩, ⟨4, true, 14, 24⟩]

/-- A concrete element stream of three surviving nodes, used by the
batching and loader witnesses. -/
def sampleObjs : List OsmObj :=
  [.node 1 [("amenity", "cafe"), ("name", "A")] 5 6,
   .node 2 [("amenity", "bar"), ("name", "B")] 7 8,
   .node 3 [("shop", "bakery"), ("name", "C")] 9 10]

/-- A JSON-like value, the "arbitrary structured input" that
`fourmore_shared/category_mapping.py` validates.  Objects are
association lists (JSON parsing leaves keys unique). -/
inductive JVal where
  | jnull
  | jbool (b : Bool)
  | jnum (n : Int)
  | jstr (s : String)
  | jarr (items : List JVal)
  | jobj (fields : List (String × JVal))

/-- Python truthiness of a value, as used by `if matches:` and
`if category.get("is_fallback"):`. -/
def truthy : JVal → Bool
  | .jnull => false
  | .jbool b => b
  | .jnum n => n != 0
  | .jstr s => !s.data.isEmpty
  | .jarr l => !l.isEmpty
  | .jobj f => !f.isEmpty

/-- ASCII whitespace recognized by Python `str.strip()`. -/
def isSpaceChar (c : Char) : Bool :=
  c == ' ' || c == '\t' || c == '\n' || c == '\r' || c == '\x0b' || c == '\x0c'

/-- Python `str.strip()`: drop leading and trailing whitespace. -/
def pyStrip (s : String) : String :=
  String.mk (((s.data.dropWhile isSpaceChar).reverse.dropWhile
    isSpaceChar).reverse)

/-- Split a character list at every occurrence of `c`, keeping empty
segments — the semantics of Python `str.split(c)` for a one-character
separator (`"".split(c) == [""]`). -/
def splitOnChar (c : Char) : List Char → List (List Char)
  | [] => [[]]
  | x :: xs =>
    if x == c then [] :: splitOnChar c xs
    else
      match splitOnChar c xs with
      | g :: gs => (x :: g) :: gs
      | [] => [[x]]

/-- Python `s.split(c)` for a one-character separator. -/
def splitAll (c : Char) (s : String) : List String :=
  (splitOnChar c s.data).map String.mk

/-- Python `s.split("=", 1)` as the pair (before first `=`, rest). -/
def splitEq1 (s : String) : String × String :=
  match splitAll '=' s with
  | [] => (s, "")
  | k :: rest => (k, joinWith "=" rest)

/-- Python `c in s` for a one-character needle. -/
def strContainsChar (c : Char) (s : String) : Bool :=
  s.data.any (fun d => d == c)

mutual
/-- Python `repr()` of a JSON-like value (quote escaping inside strings
is simplified; no claim depends on the rendering of composite values). -/
def pyRepr : JVal → String
  | .jnull => "None"
  | .jbool true => "True"
  | .jbool false => "False"
  | .jnum n => toString n
  | .jstr s => "\x27" ++ s ++ "\x27"
  | .jarr l => "[" ++ pyReprList l ++ "]"
  | .jobj f => "\x7b" ++ pyReprObj f ++ "\x7d"
/-- Comma-joined `repr`s of list elements. -/
def pyReprList : List JVal → String
  | [] => ""
  | [x] => pyRepr x
  | x :: xs => pyRepr x ++ ", " ++ pyReprList xs
/-- Comma-joined `repr`s of object entries. -/
def pyReprObj : List (String × JVal) → String
  | [] => ""
  | [(k, v)] => "\x27" ++ k ++ "\x27" ++ ": " ++ pyRepr v
  | (k, v) :: xs =>
    "\x27" ++ k ++ "\x27" ++ ": " ++ pyRepr v ++ ", " ++ pyReprObj xs
end

/-- Python `str()`: identity on strings, `repr`-style otherwise. -/
def pyStr : JVal → String
  | .jstr s => s
  | v => pyRepr v

/-- Python `len()`: defined for strings, lists and dicts, a `TypeError`
(modelled as `none`) otherwise. -/
def pyLen : JVal → Option Nat
  | .jstr s => some s.data.length
  | .jarr l => some l.length
  | .jobj f => some f.length
  | _ => none

/-- Python 2-tuple unpacking `key, value = pair`: succeeds on a
two-element list, a two-character string, or a two-entry dict (yielding
its keys); raises otherwise. -/
def pyUnpack2 : JVal → Option (JVal × JVal)
  | .jarr [a, b] => some (a, b)
  | .jstr s =>
    match s.data with
    | [c1, c2] => some (.jstr (String.mk [c1]), .jstr (String.mk [c2]))
    | _ => none
  | .jobj [(k1, _), (k2, _)] => some (.jstr k1, .jstr k2)
  | _ => none

/-- Python `"=" in part`: substring test on strings, membership on lists
(true only for an element equal to the string `"="`), key membership on
dicts, and a `TypeError` (`none`) on anything else. -/
def pyContainsEq : JVal → Option Bool
  | .jstr s => some (strContainsChar '=' s)
  | .jarr l =>
    some (l.any (fun v => match v with | .jstr s => s == "=" | _ => false))
  | .jobj f => some (f.any (fun kv => kv.1 == "="))
  | _ => none

/-- The string branch of `normalize_match`: each non-empty stripped
segment must contain `=` and is split at the first `=` into a stripped
(key, value) pair. -/
def normalizeStrParts : List String → Except String (List (String × String))
  | [] => .ok []
  | p :: ps =>
    if strContainsChar '=' p then
      match normalizeStrParts ps with
      | .ok rest =>
        .ok ((pyStrip (splitEq1 p).1, pyStrip (splitEq1 p).2) :: rest)
      | .error e => .error e
    else .error "Match segment must be in key=value form"

/-- The list-of-pairs branch of `normalize_match`: each pair must have
`len(pair) == 2` and unpacks into `(str(key).strip(), str(value).strip())`. -/
def normalizePairItems : List JVal → Except String (List (String × String))
  | [] => .ok []
  | pair :: rest =>
    match pyLen pair with
    | none => .error "TypeError: object has no len"
    | some n =>
      if n != 2 then .error "Match pair must have exactly two elements"
      else
        match pyUnpack2 pair with
        | none => .error "TypeError: cannot unpack"
        | some (k, v) =>
          match normalizePairItems rest with
          | .ok tail => .ok ((pyStrip (pyStr k), pyStrip (pyStr v)) :: tail)
          | .error e => .error e

/-- The list-of-strings branch of `normalize_match`: each part must
contain `=` (a `TypeError` when `in` is unsupported for the part) and
`str(part)` is split at the first `=`. -/
def normalizeSegmentItems : List JVal → Except String (List (String × String))
  | [] => .ok []
  | part :: rest =>
    match pyContainsEq part with
    | none => .error "TypeError: argument is not iterable"
    | some false => .error "Match segment must be in key=value form"
    | some true =>
      match normalizeSegmentItems rest with
      | .ok tail =>
        .ok ((pyStrip (splitEq1 (pyStr part)).1,
              pyStrip (splitEq1 (pyStr part)).2) :: tail)
      | .error e => .error e

/-- Embedding of `normalize_match(match)` of
`fourmore_shared/category_mapping.py`: a string is split on `&` into
stripped non-empty segments; a non-empty list is dispatched on its first
element (list-like head: pair form; string head: segment form); anything
else — including the empty list — raises `Unsupported match format`.
Note the string `""` normalizes to the empty tuple without error. -/
def normalize_match (m : JVal) : Except String (List (String × String)) :=
  match m with
  | .jstr s =>
    normalizeStrParts
      (((splitAll '&' s).map pyStrip).filter (fun p => !p.data.isEmpty))
  | .jarr items =>
    match items with
    | [] => .error "Unsupported match format"
    | first :: _ =>
      match first with
      | .jarr _ => normalizePairItems items
      | .jstr _ => normalizeSegmentItems items
      | _ => .error "Unsupported match format"
  | _ => .error "Unsupported match format"

/-- Whether a fallible computation returned without raising. -/
def exceptOk {ε : Type} {α : Type} : Except ε α → Bool
  | .ok _ => true
  | .error _ => false

/-- The per-field check of `validate_category_mapping`: the field must be
present, a string, and non-empty after stripping; returns the (unstripped)
string. -/
def checkStrField (fields : List (String × JVal)) (field : String) :
    Except String String :=
  match fields.lookup field with
  | none => .error "Category missing required field"
  | some v =>
    match v with
    | .jstr s =>
      if (pyStrip s).data.isEmpty then
        .error "Category field must be a non-empty string"
      else .ok s
    | _ => .error "Category field must be a non-empty string"

/-- The `for match in matches: normalize_match(match)` loop: results are
discarded, the first error aborts validation. -/
def validateMatches : List JVal → Except String Unit
  | [] => .ok ()
  | m :: rest =>
    match normalize_match m with
    | .ok _ => validateMatches rest
    | .error e => .error e

/-- The per-category body of `validate_category_mapping`'s loop: the
category must be an object with non-empty string `class`, `label` and
`icon` fields, a fresh class name, and — when present and non-null — a
list of matches each of which normalizes; returns the class name and the
truthiness of `is_fallback`. -/
def validateOneCategory (seen : List String) (cat : JVal) :
    Except String (String × Bool) :=
  match cat with
  | .jobj fields =>
    match checkStrField fields "class" with
    | .error e => .error e
    | .ok c =>
      match checkStrField fields "label" with
      | .error e => .error e
      | .ok _ =>
        match checkStrField fields "icon" with
        | .error e => .error e
        | .ok _ =>
          if c ∈ seen then .error "Duplicate category class"
          else
            match (fields.lookup "matches").getD (.jarr []) with
            | .jnull =>
              .ok (c, truthy ((fields.lookup "is_fallback").getD .jnull))
            | .jarr ms =>
              match validateMatches ms with
              | .ok _ =>
                .ok (c, truthy ((fields.lookup "is_fallback").getD .jnull))
              | .error e => .error e
            | _ => .error "Category field matches must be a list if provided"
  | _ => .error "Category must be an object"

/-- The category loop of `validate_category_mapping`, threading the set
of seen class names and the fallback-flag count; at the end the mapping
must be non-empty and the fallback count exactly one. -/
def validateCats : List JVal → List String → Nat → Except String Unit
  | [], seen, fb =>
    if seen.length > 0 then
      if fb == 1 then .ok ()
      else .error "Category mapping must define exactly one fallback category"
    else .error "Category mapping must contain at least one entry"
  | cat :: rest, seen, fb =>
    match validateOneCategory seen cat with
    | .error e => .error e
    | .ok (c, isFb) =>
      validateCats rest (seen ++ [c]) (if isFb then fb + 1 else fb)

/-- Embedding of `validate_category_mapping(categories)`: the input must
be a list, and every per-category and aggregate check must pass. -/
def validate_category_mapping (categories : JVal) : Except String Unit :=
  match categories with
  | .jarr cats => validateCats cats [] 0
  | _ => .error "Category mapping must be a list"

/-- The class name a category contributes, read directly off the raw
structure (spec side). -/
def categoryClassName (cat : JVal) : Option String :=
  match cat with
  | .jobj fields =>
    match fields.lookup "class" with
    | some (.jstr s) => some s
    | _ => none
  | _ => none

/-- The categories of a rule set (spec side). -/
def catsOf : JVal → List JVal
  | .jarr cats => cats
  | _ => []

/-- All class names of a rule set (spec side). -/
def classNamesOf (v : JVal) : List String :=
  (catsOf v).filterMap categoryClassName

/-- Whether a category's `is_fallback` flag is (truthily) set. -/
def categoryIsFallback (cat : JVal) : Bool :=
  match cat with
  | .jobj fields => truthy ((fields.lookup "is_fallback").getD .jnull)
  | _ => false

/-- How many categories of a rule set carry the fallback flag. -/
def fallbackCountOf (v : JVal) : Nat :=
  ((catsOf v).filter categoryIsFallback).length

/-- Acceptance condition in the spec's words, for the refinement
comparison with `validate_category_mapping`: class names are unique and
exactly one category has `is_fallback = true`. -/
def specAcceptCondition (v : JVal) : Prop :=
  (classNamesOf v).Nodup ∧ fallbackCountOf v = 1

/-- The match predicates attached to a category (spec side). -/
def matchesOf (cat : JVal) : List JVal :=
  match cat with
  | .jobj fields =>
    match (fields.lookup "matches").getD (.jarr []) with
    | .jarr ms => ms
    | _ => []
  | _ => []

end FourMore

namespace FourMore

/-- C1.  The claim states that `_categorize_poi` returns the same pair on
any two tag sets that are equal as mappings, regardless of iteration
order.  The code iterates the tag dict itself, so the claim is false: the
two association lists below are permutations of one another with distinct
keys (hence equal as mappings, differing only in insertion/iteration
order), yet one classifies to `("food", "restaurant")` and the other to
`("food", "bakery")`.  Design note §9 of the spec itself flags this as the
latent determinism bug of the reference classifier. -/
theorem categorize_poi_tag_order_dependent :
    [("amenity", "restaurant"), ("shop", "bakery")].Perm
        [("shop", "bakery"), ("amenity", "restaurant")] ∧
    ([("amenity", "restaurant"), ("shop", "bakery")].map Prod.fst).Nodup ∧
    categorizePoi [("amenity", "restaurant"), ("shop", "bakery")] =
        some ("food", "restaurant") ∧
    categorizePoi [("shop", "bakery"), ("amenity", "restaurant")] =
        some ("food", "bakery") :=
  ⟨List.Perm.swap _ _ _, by decide, by decide, by decide⟩

/-- C3.  Whenever the tag set contains at least one key recognized by
`POI_CATEGORIES` (so that `firstRecognized` yields an entry), the
classifier never reports "no match"; and when the first recognized
entry's value has no entry in that key's value map, the classifier
returns the raw tag key as category and the raw tag value as
subcategory. -/
theorem categorize_recognized_key_matches (tags : List (String × String))
    (k v : String) (h : firstRecognized tags = some (k, v)) :
    (categorizePoi tags).isSome = true ∧
      ((POI_CATEGORIES.lookup k).bind (fun m => m.lookup v) = none →
        categorizePoi tags = some (k, v)) := by
  induction tags with
  | nil => simp [firstRecognized] at h
  | cons p rest ih =>
    obtain ⟨k0, v0⟩ := p
    by_cases hk : (POI_CATEGORIES.lookup k0).isSome
    · rw [firstRecognized, if_pos hk] at h
      injection h with h2
      injection h2 with hk1 hv1
      subst hk1
      subst hv1
      obtain ⟨m, hm⟩ := Option.isSome_iff_exists.mp hk
      constructor
      · simp only [categorizePoi, hm]
        cases hmv : List.lookup v0 m <;> simp [hmv]
      · intro hnone
        rw [hm] at hnone
        have hmv : List.lookup v0 m = none := by simpa using hnone
        simp only [categorizePoi, hm, hmv]
    · rw [firstRecognized, if_neg hk] at h
      have hknone : POI_CATEGORIES.lookup k0 = none :=
        Option.not_isSome_iff_eq_none.mp hk
      simp only [categorizePoi, hknone]
      exact ih h

/-- Witness for C3 at the claim's own example `{amenity: bench, name: X}`:
`bench` has no entry in the `amenity` value map, so the raw key/value pair
is returned. -/
theorem categorize_recognized_key_matches_witness :
    (categorizePoi [("amenity", "bench"), ("name", "X")]).isSome = true ∧
      categorizePoi [("amenity", "bench"), ("name", "X")] =
        some ("amenity", "bench") :=
  ⟨(categorize_recognized_key_matches _ "amenity" "bench" (by decide)).1,
   (categorize_recognized_key_matches _ "amenity" "bench" (by decide)).2
     (by decide)⟩

/-- C8.  A closed way carrying one of the area-indicating keys, all of
whose vertices are valid (and whose ring is non-degenerate, so the
polygon constructs — spec §4.2 makes degenerate shapes unresolvable),
reduces to the first vertex of its exterior ring. -/
theorem closed_area_way_reduces_to_first_vertex (id : Int)
    (nodes : List WayNode) (tags : List (String × String))
    (category subcategory : String)
    (hvalid : nodes.all (fun n => n.valid) = true)
    (hclosed : wayIsClosed nodes = true)
    (harea : areaTagged tags = true)
    (hlen : 4 ≤ nodes.length) :
    (extractPoiFromWayOptimized id nodes tags category subcategory).map
        (fun p => (p.lat, p.lon)) =
      nodes.head?.map (fun n => (n.lat, n.lon)) := by
  cases nodes with
  | nil => simp [wayIsClosed] at hclosed
  | cons n ns =>
    have hlen' : 3 ≤ ns.length := by simpa using hlen
    simp [extractPoiFromWayOptimized, hvalid, hclosed, harea,
      createPolygon, hlen, hlen', extractCentroidFromWkt]

/-- Witness for C8 at the spec's test vector: a closed way tagged
`building=yes` with ring `[(0,0), (1,0), (1,1), (0,1), (0,0)]` reduces
to `(0, 0)`. -/
theorem closed_area_way_reduces_to_first_vertex_witness :
    closedRingNodes.all (fun n => n.valid) = true ∧
    wayIsClosed closedRingNodes = true ∧
    areaTagged [("building", "yes"), ("name", "X")] = true ∧
    4 ≤ closedRingNodes.length ∧
    (extractPoiFromWayOptimized 7 closedRingNodes
        [("building", "yes"), ("name", "X")] "c" "s").map
        (fun p => (p.lat, p.lon)) = some ((0 : Int), (0 : Int)) :=
  ⟨by decide, by decide, by decide, by decide,
   (closed_area_way_reduces_to_first_vertex 7 closedRingNodes
      [("building", "yes"), ("name", "X")] "c" "s"
      (by decide) (by decide) (by decide) (by decide)).trans (by decide)⟩

/-- C9.  A way processed along the linestring path (in particular every
open way) with at least two valid vertices reduces to the vertex at
0-based index `floor(n/2)` of its ordered vertex chain. -/
theorem open_way_reduces_to_midpoint_vertex (id : Int)
    (nodes : List WayNode) (tags : List (String × String))
    (category subcategory : String)
    (hvalid : nodes.all (fun n => n.valid) = true)
    (hopen : wayIsClosed nodes = false)
    (hlen : 2 ≤ nodes.length) :
    (extractPoiFromWayOptimized id nodes tags category subcategory).map
        (fun p => (p.lat, p.lon)) =
      nodes[nodes.length / 2]?.map (fun n => (n.lat, n.lon)) := by
  have hix : nodes.length / 2 < nodes.length :=
    Nat.div_lt_self (by omega) (by omega)
  simp [extractPoiFromWayOptimized, hvalid, hopen, createLinestring, hlen,
    extractCentroidFromWkt, List.getElem?_eq_getElem hix]

/-- Witness for C9 at the spec's test vector: a 5-vertex open way
reduces to the vertex at index `2 = floor(5/2)`. -/
theorem open_way_reduces_to_midpoint_vertex_witness :
    openChainNodes.all (fun n => n.valid) = true ∧
    wayIsClosed openChainNodes = false ∧
    2 ≤ openChainNodes.length ∧
    (extractPoiFromWayOptimized 9 openChainNodes
        [("highway", "footway"), ("name", "X")] "c" "s").map
        (fun p => (p.lat, p.lon)) = some ((12 : Int), (22 : Int)) :=
  ⟨by decide, by decide, by decide,
   (open_way_reduces_to_midpoint_vertex 9 openChainNodes
      [("highway", "footway"), ("name", "X")] "c" "s"
      (by decide) (by decide) (by decide)).trans (by decide)⟩

/-- C10.  An element without a `name` tag is never emitted as a POI:
both the streaming extractor `_optimize_poi_extraction` (on any element)
and the backend's `_extract_poi_from_node` return `None` whenever the
tag set has no `name` key, regardless of the element's other tags and
geometry. -/
theorem no_name_never_emitted (tags : List (String × String))
    (h : tags.lookup "name" = none) :
    (∀ obj : OsmObj, obj.tags = tags → optimizePoiExtraction obj = none) ∧
    (∀ id lat lon : Int, extractPoiFromNode id tags lat lon = none) := by
  constructor
  · intro obj hobj
    unfold optimizePoiExtraction
    rw [hobj, h]
    simp
  · intro id lat lon
    unfold extractPoiFromNode
    cases hc : categorizePoi tags with
    | none => simp
    | some p =>
      obtain ⟨c, s⟩ := p
      simp [h]

/-- Witness for C10: a nameless element with otherwise classifiable tags
is dropped by both extraction functions. -/
theorem no_name_never_emitted_witness :
    optimizePoiExtraction (.node 1 [("amenity", "restaurant")] 0 0) = none ∧
    extractPoiFromNode 1 [("amenity", "restaurant")] 0 0 = none :=
  ⟨(no_name_never_emitted [("amenity", "restaurant")] (by decide)).1 _ rfl,
   (no_name_never_emitted [("amenity", "restaurant")] (by decide)).2 1 0 0⟩

/-- Flattening the generator's buffer loop recovers the whole input,
whatever the current buffer holds. -/
lemma chunkLoop_flatten {α : Type} (B : Nat) (xs : List α) : ∀ (acc : List α),
    (chunkLoop B acc xs).flatten = acc ++ xs := by
  induction xs with
  | nil =>
    intro acc
    cases h : acc.isEmpty with
    | true =>
      have : acc = [] := List.isEmpty_iff.mp h
      subst this
      simp [chunkLoop]
    | false => simp [chunkLoop, h]
  | cons x xs ih =>
    intro acc
    simp only [chunkLoop]
    split
    · simp [ih]
    · simp [ih]

/-- The buffer loop never yields an empty batch: full buffers have just
received an element, and the trailing partial buffer is yielded only
when non-empty. -/
lemma chunkLoop_batches_ne_nil {α : Type} (B : Nat) (xs : List α) :
    ∀ (acc : List α), ∀ b ∈ chunkLoop B acc xs, b ≠ [] := by
  induction xs with
  | nil =>
    intro acc b hb
    cases h : acc.isEmpty with
    | true => simp_all [chunkLoop]
    | false =>
      simp only [chunkLoop, h, Bool.false_eq_true, if_false] at hb
      have : b = acc := by simpa using hb
      subst this
      simp_all [List.isEmpty_iff]
  | cons x xs ih =>
    intro acc b hb
    simp only [chunkLoop] at hb
    split at hb
    · rcases List.mem_cons.mp hb with rfl | hb'
      · simp
      · exact ih [] b hb'
    · exact ih _ b hb

/-- The buffer loop yields `ceil((pending + incoming) / B)` batches as
long as the current buffer is below the batch size. -/
lemma chunkLoop_length {α : Type} (B : Nat) (hB : 1 ≤ B) (xs : List α) :
    ∀ (acc : List α), acc.length < B →
    (chunkLoop B acc xs).length = (acc.length + xs.length + B - 1) / B := by
  induction xs with
  | nil =>
    intro acc hacc
    cases h : acc.isEmpty with
    | true =>
      have : acc = [] := List.isEmpty_iff.mp h
      subst this
      have hz : (B - 1) / B = 0 := Nat.div_eq_of_lt (by omega)
      simp [chunkLoop, hz]
    | false =>
      have hne : acc ≠ [] := by simp_all [List.isEmpty_iff]
      have h1 : 1 ≤ acc.length := List.length_pos.mpr hne
      have hres : chunkLoop B acc ([] : List α) = [acc] := by
        simp [chunkLoop, h]
      have hdiv : (acc.length + B - 1) / B = 1 :=
        Nat.div_eq_of_lt_le (by omega) (by omega)
      rw [hres]
      simp [hdiv]
  | cons x xs ih =>
    intro acc hacc
    have hax : (acc ++ [x]).length = acc.length + 1 := by simp
    simp only [chunkLoop]
    by_cases h : B ≤ (acc ++ [x]).length
    · have hlen : acc.length + 1 = B := by omega
      rw [if_pos h]
      simp only [List.length_cons]
      rw [ih [] (by simp; omega)]
      simp only [List.length_nil]
      have harith : acc.length + (xs.length + 1) + B - 1 =
          (0 + xs.length + B - 1) + B := by omega
      rw [harith, Nat.add_div_right _ (by omega)]
    · have hlt : (acc ++ [x]).length < B := by omega
      rw [if_neg h]
      rw [ih (acc ++ [x]) hlt]
      congr 1
      rw [hax]
      simp only [List.length_cons]
      omega

/-- Every batch the buffer loop yields, except possibly the final one,
has size exactly `B`: the buffer grows one element at a time and is
yielded the moment it reaches `B`. -/
lemma chunkLoop_dropLast_sizes {α : Type} (B : Nat) (xs : List α) :
    ∀ (acc : List α), acc.length < B →
    ∀ b ∈ (chunkLoop B acc xs).dropLast, b.length = B := by
  induction xs with
  | nil =>
    intro acc hacc b hb
    cases h : acc.isEmpty with
    | true => simp_all [chunkLoop]
    | false => simp_all [chunkLoop]
  | cons x xs ih =>
    intro acc hacc b hb
    have hax : (acc ++ [x]).length = acc.length + 1 := by simp
    simp only [chunkLoop] at hb
    by_cases h : B ≤ (acc ++ [x]).length
    · have hlen : (acc ++ [x]).length = B := by omega
      rw [if_pos h] at hb
      cases hrec : chunkLoop B ([] : List α) xs with
      | nil => rw [hrec] at hb; simp at hb
      | cons c cs =>
        rw [hrec, List.dropLast_cons₂] at hb
        rcases List.mem_cons.mp hb with rfl | hb'
        · exact hlen
        · have := ih [] (by simp; omega) b
          rw [hrec] at this
          exact this hb'
    · have hlt : (acc ++ [x]).length < B := by omega
      rw [if_neg h] at hb
      exact ih _ hlt b hb

/-- The generator loop is the pure buffer loop applied to the stream's
surviving records. -/
lemma osmBatchLoop_eq_chunkLoop (B : Nat) (objs : List OsmObj) :
    ∀ (acc : List POIData),
    osmBatchLoop B acc objs =
      chunkLoop B acc (objs.filterMap optimizePoiExtraction) := by
  induction objs with
  | nil => intro acc; rfl
  | cons o os ih =>
    intro acc
    cases h : optimizePoiExtraction o with
    | none => simpa [osmBatchLoop, h, List.filterMap_cons] using ih acc
    | some p =>
      simp only [osmBatchLoop, h, List.filterMap_cons, chunkLoop]
      split
      · simp [ih]
      · simp [ih]

/-- C7.  For a stream with `N` surviving POI records and batch size
`B ≥ 1`, `_process_osm_batches` yields exactly `ceil(N/B)` batches;
every batch except possibly the last has size exactly `B`; every batch
(the last included) is non-empty; and the batches concatenate, in order,
to the surviving-record sequence. -/
theorem batching_law (objs : List OsmObj) (B : Nat) (hB : 1 ≤ B) :
    (processOsmBatches objs B).length =
        ((objs.filterMap optimizePoiExtraction).length + B - 1) / B ∧
    (∀ b ∈ (processOsmBatches objs B).dropLast, b.length = B) ∧
    (∀ b ∈ processOsmBatches objs B, b ≠ []) ∧
    (processOsmBatches objs B).flatten =
      objs.filterMap optimizePoiExtraction := by
  have he : processOsmBatches objs B =
      chunkLoop B [] (objs.filterMap optimizePoiExtraction) :=
    osmBatchLoop_eq_chunkLoop B objs []
  refine ⟨?_, ?_, ?_, ?_⟩
  · rw [he, chunkLoop_length B hB _ [] (by simp; omega)]
    simp
  · rw [he]
    exact chunkLoop_dropLast_sizes B _ [] (by simp; omega)
  · rw [he]
    exact chunkLoop_batches_ne_nil B _ []
  · rw [he, chunkLoop_flatten]
    simp

/-- Witness for C7: three surviving records at batch size 2 form two
batches (`ceil(3/2)`), the first full, the last non-empty, concatenating
back to the record sequence. -/
theorem batching_law_witness :
    1 ≤ 2 ∧
    ((processOsmBatches sampleObjs 2).length =
        ((sampleObjs.filterMap optimizePoiExtraction).length + 2 - 1) / 2 ∧
      (∀ b ∈ (processOsmBatches sampleObjs 2).dropLast, b.length = 2) ∧
      (∀ b ∈ processOsmBatches sampleObjs 2, b ≠ []) ∧
      (processOsmBatches sampleObjs 2).flatten =
        sampleObjs.filterMap optimizePoiExtraction) :=
  ⟨by decide, batching_law sampleObjs 2 (by decide)⟩

/-- A write failure at the k-th batch save leaves exactly the earlier
batches' rows committed: the failed batch's transaction rolls back and
the run aborts before any later batch is attempted. -/
lemma streamLoad_fail (batches : List (List POIData)) :
    ∀ (committed : List POIData) (k : Nat),
      (∀ b ∈ batches, b ≠ []) → k < batches.length →
      streamLoad committed batches (some k) =
        .aborted (committed ++ (batches.take k).flatten) := by
  induction batches with
  | nil =>
    intro committed k _ hk
    simp at hk
  | cons b rest ih =>
    intro committed k hne hk
    have hb : b ≠ [] := hne b (by simp)
    have hbe : ¬(b.isEmpty = true) := by simpa [List.isEmpty_iff] using hb
    cases k with
    | zero =>
      simp only [streamLoad, if_neg hbe]
      simp
    | succ n =>
      simp only [streamLoad, if_neg hbe]
      rw [ih (committed ++ b) n (fun x hx => hne x (by simp [hx]))
        (by simpa using hk)]
      simp [List.take_succ_cons]

/-- C5.  If the destination-store write fails while loading batch `k+1`
(0-based index `k`) of the run's batches, the run aborts and the
destination holds exactly the concatenation of the first `k` batches —
no record of the failed batch or of any later batch is committed. -/
theorem batch_failure_commits_first_batches (prev : List POIData)
    (objs : List OsmObj) (B k : Nat)
    (hk : k < (processOsmBatches objs B).length) :
    processOsmFileStreaming prev objs B (some k) =
      .aborted (((processOsmBatches objs B).take k).flatten) := by
  have hne : ∀ b ∈ processOsmBatches objs B, b ≠ [] := by
    rw [show processOsmBatches objs B =
        chunkLoop B [] (objs.filterMap optimizePoiExtraction) from
      osmBatchLoop_eq_chunkLoop B objs []]
    exact chunkLoop_batches_ne_nil _ _ []
  unfold processOsmFileStreaming deleteAllPois
  rw [streamLoad_fail _ [] k hne hk]
  simp

/-- Witness for C5: with batch size 1 the sample stream forms three
batches; failing the second save leaves exactly the first batch's record
committed and the run aborted. -/
theorem batch_failure_commits_first_batches_witness :
    1 < (processOsmBatches sampleObjs 1).length ∧
    processOsmFileStreaming [] sampleObjs 1 (some 1) =
      .aborted (((processOsmBatches sampleObjs 1).take 1).flatten) :=
  ⟨by decide,
   batch_failure_commits_first_batches [] sampleObjs 1 1 (by decide)⟩

/-- C6.  Rebuilding is idempotent: because every run begins with the
full delete of all existing POI rows, a second run of the pipeline
against the same extract and rule set — starting from the destination
state the first run left — produces exactly the same outcome (same
committed rows, hence same `(element_type, source_id)` keys and category
assignments) as the first run. -/
theorem pipeline_rerun_idempotent (prev : List POIData) (objs : List OsmObj)
    (B : Nat) :
    processOsmFileStreaming
        (committedOf (processOsmFileStreaming prev objs B none)) objs B none =
      processOsmFileStreaming prev objs B none := rfl

/-- A field check that returns a string found that string in the raw
structure. -/
lemma checkStrField_ok {fields : List (String × JVal)} {field s : String}
    (h : checkStrField fields field = .ok s) :
    fields.lookup field = some (.jstr s) := by
  cases hl : fields.lookup field with
  | none => simp [checkStrField, hl] at h
  | some v =>
    cases v with
    | jstr s0 =>
      simp only [checkStrField, hl] at h
      by_cases he : (pyStrip s0).data.isEmpty = true
      · rw [if_pos he] at h
        simp at h
      · rw [if_neg he] at h
        have hs : s0 = s := by injection h
        subst hs
        rfl
    | jnull => simp [checkStrField, hl] at h
    | jbool b => simp [checkStrField, hl] at h
    | jnum n => simp [checkStrField, hl] at h
    | jarr l => simp [checkStrField, hl] at h
    | jobj f => simp [checkStrField, hl] at h

/-- When the matches loop completes, every predicate in it normalized
without raising. -/
lemma validateMatches_ok {ms : List JVal} (h : validateMatches ms = .ok ()) :
    ∀ m ∈ ms, exceptOk (normalize_match m) = true := by
  induction ms with
  | nil => simp
  | cons m rest ih =>
    intro x hx
    cases hn : normalize_match m with
    | error e => simp [validateMatches, hn] at h
    | ok r =>
      simp only [validateMatches, hn] at h
      rcases List.mem_cons.mp hx with rfl | hx'
      · simp [exceptOk, hn]
      · exact ih h x hx'

/-- A category that passes the per-category checks contributes exactly
the class name returned, fresh with respect to the seen set, with the
reported fallback truthiness, and all of its match predicates normalize
without raising. -/
lemma validateOneCategory_ok {seen : List String} {cat : JVal} {c : String}
    {b : Bool} (h : validateOneCategory seen cat = .ok (c, b)) :
    categoryClassName cat = some c ∧ c ∉ seen ∧
    categoryIsFallback cat = b ∧
    (∀ m ∈ matchesOf cat, exceptOk (normalize_match m) = true) := by
  cases cat with
  | jobj fields =>
    cases h1 : checkStrField fields "class" with
    | error e => simp [validateOneCategory, h1] at h
    | ok c0 =>
      cases h2 : checkStrField fields "label" with
      | error e => simp [validateOneCategory, h1, h2] at h
      | ok l0 =>
        cases h3 : checkStrField fields "icon" with
        | error e => simp [validateOneCategory, h1, h2, h3] at h
        | ok i0 =>
          simp only [validateOneCategory, h1, h2, h3] at h
          by_cases hmem : c0 ∈ seen
          · rw [if_pos hmem] at h
            simp at h
          · rw [if_neg hmem] at h
            have hclass : categoryClassName (.jobj fields) = some c0 := by
              simp [categoryClassName, checkStrField_ok h1]
            cases hm : (fields.lookup "matches").getD (.jarr []) with
            | jnull =>
              rw [hm] at h
              simp only at h
              injection h with h4
              obtain ⟨rfl, rfl⟩ : c0 = c ∧
                  truthy ((fields.lookup "is_fallback").getD .jnull) = b :=
                ⟨congrArg Prod.fst h4, congrArg Prod.snd h4⟩
              refine ⟨hclass, hmem, rfl, ?_⟩
              simp [matchesOf, hm]
            | jarr ms =>
              rw [hm] at h
              cases hv : validateMatches ms with
              | error e => simp [hv] at h
              | ok u =>
                simp only [hv] at h
                injection h with h4
                obtain ⟨rfl, rfl⟩ : c0 = c ∧
                    truthy ((fields.lookup "is_fallback").getD .jnull) = b :=
                  ⟨congrArg Prod.fst h4, congrArg Prod.snd h4⟩
                refine ⟨hclass, hmem, rfl, ?_⟩
                have hms : matchesOf (.jobj fields) = ms := by
                  simp [matchesOf, hm]
                rw [hms]
                cases u
                exact validateMatches_ok hv
            | jnum n => rw [hm] at h; simp at h
            | jbool b0 => rw [hm] at h; simp at h
            | jstr s0 => rw [hm] at h; simp at h
            | jobj f0 => rw [hm] at h; simp at h
  | jnull => simp [validateOneCategory] at h
  | jbool b0 => simp [validateOneCategory] at h
  | jnum n0 => simp [validateOneCategory] at h
  | jstr s0 => simp [validateOneCategory] at h
  | jarr l0 => simp [validateOneCategory] at h

/-- Soundness of the category loop: completion implies distinct fresh
class names, a total fallback count of exactly one, and error-free
normalization of every match predicate. -/
lemma validateCats_ok (cats : List JVal) : ∀ (seen : List String) (fb : Nat),
    validateCats cats seen fb = .ok () →
    (cats.filterMap categoryClassName).Nodup ∧
    (∀ n ∈ cats.filterMap categoryClassName, n ∉ seen) ∧
    fb + (cats.filter categoryIsFallback).length = 1 ∧
    (∀ cat ∈ cats, ∀ m ∈ matchesOf cat,
      exceptOk (normalize_match m) = true) := by
  induction cats with
  | nil =>
    intro seen fb h
    unfold validateCats at h
    by_cases h1 : seen.length > 0
    · rw [if_pos h1] at h
      by_cases h2 : (fb == 1) = true
      · have hfb : fb = 1 := by simpa using h2
        simp [hfb]
      · rw [if_neg h2] at h
        simp at h
    · rw [if_neg h1] at h
      simp at h
  | cons cat rest ih =>
    intro seen fb h
    cases hv : validateOneCategory seen cat with
    | error e => simp [validateCats, hv] at h
    | ok p =>
      obtain ⟨c, isFb⟩ := p
      simp only [validateCats, hv] at h
      obtain ⟨hclass, hmem, hfb, hmatches⟩ := validateOneCategory_ok hv
      obtain ⟨hnodup, hdisj, hcount, hall⟩ := ih _ _ h
      have hfm : (cat :: rest).filterMap categoryClassName =
          c :: rest.filterMap categoryClassName := by
        simp [List.filterMap_cons, hclass]
      have hcnotin : c ∉ rest.filterMap categoryClassName := by
        intro hc
        exact hdisj c hc (by simp)
      refine ⟨?_, ?_, ?_, ?_⟩
      · rw [hfm]
        exact List.nodup_cons.mpr ⟨hcnotin, hnodup⟩
      · rw [hfm]
        intro n hn
        rcases List.mem_cons.mp hn with rfl | hn'
        · exact hmem
        · intro hcontra
          exact hdisj n hn' (List.mem_append_left _ hcontra)
      · cases isFb with
        | true =>
          have hflt : (cat :: rest).filter categoryIsFallback =
              cat :: rest.filter categoryIsFallback := by
            simp [List.filter_cons, hfb]
          rw [hflt]
          simp only [List.length_cons]
          simp only [if_true] at hcount
          omega
        | false =>
          have hflt : (cat :: rest).filter categoryIsFallback =
              rest.filter categoryIsFallback := by
            simp [List.filter_cons, hfb]
          rw [hflt]
          simp only [Bool.false_eq_true, if_false] at hcount
          omega
      · intro x hx
        rcases List.mem_cons.mp hx with rfl | hx'
        · exact hmatches
        · exact hall x hx'

/-- C2 (amended).  The "only if" direction of the claim holds: whenever
`validate_category_mapping` returns without error, the class names are
pairwise distinct and exactly one category has a (truthy) `is_fallback`
flag.  The converse — that nothing else causes rejection — is refuted by
`validate_rejects_spec_accepted_input`. -/
theorem validate_accept_implies_unique_single_fallback (v : JVal)
    (h : validate_category_mapping v = .ok ()) :
    (classNamesOf v).Nodup ∧ fallbackCountOf v = 1 := by
  cases v with
  | jarr cats =>
    obtain ⟨h1, _, h3, _⟩ := validateCats_ok cats [] 0 h
    exact ⟨h1, by simpa using h3⟩
  | jnull => simp [validate_category_mapping] at h
  | jbool b0 => simp [validate_category_mapping] at h
  | jnum n0 => simp [validate_category_mapping] at h
  | jstr s0 => simp [validate_category_mapping] at h
  | jobj f0 => simp [validate_category_mapping] at h

/-- Witness for the amended C2 at a concrete accepted rule set. -/
theorem validate_accept_implies_unique_single_fallback_witness :
    (classNamesOf (.jarr [.jobj [("class", .jstr "good"),
        ("label", .jstr "Good"), ("icon", .jstr "i"),
        ("is_fallback", .jbool true)]])).Nodup ∧
    fallbackCountOf (.jarr [.jobj [("class", .jstr "good"),
        ("label", .jstr "Good"), ("icon", .jstr "i"),
        ("is_fallback", .jbool true)]]) = 1 :=
  validate_accept_implies_unique_single_fallback _ rfl

/-- C2 (counterexample).  The claimed "if" direction is false: this rule
set has unique class names and exactly one fallback flag, yet
`validate_category_mapping` rejects it (its `label` is empty), so
conditions other than uniqueness and the fallback count cause
rejection. -/
theorem validate_rejects_spec_accepted_input :
    specAcceptCondition (.jarr [.jobj [("class", .jstr "a"),
      ("label", .jstr ""), ("icon", .jstr "i"),
      ("is_fallback", .jbool true)]]) ∧
    exceptOk (validate_category_mapping (.jarr [.jobj [("class", .jstr "a"),
      ("label", .jstr ""), ("icon", .jstr "i"),
      ("is_fallback", .jbool true)]])) = false :=
  ⟨⟨by decide, rfl⟩, rfl⟩

/-- C4 (amended).  Every match predicate of every category of an
accepted rule set normalizes without raising.  The claim's stronger
statement — that each normalizes into at least one pair — is refuted by
`validate_accepts_zero_pair_match`. -/
theorem validate_accept_implies_matches_normalize (v : JVal)
    (h : validate_category_mapping v = .ok ()) :
    ∀ cat ∈ catsOf v, ∀ m ∈ matchesOf cat,
      exceptOk (normalize_match m) = true := by
  cases v with
  | jarr cats => exact (validateCats_ok cats [] 0 h).2.2.2
  | jnull => simp [validate_category_mapping] at h
  | jbool b0 => simp [validate_category_mapping] at h
  | jnum n0 => simp [validate_category_mapping] at h
  | jstr s0 => simp [validate_category_mapping] at h
  | jobj f0 => simp [validate_category_mapping] at h

/-- Witness for the amended C4 at a concrete accepted rule set with one
match predicate. -/
theorem validate_accept_implies_matches_normalize_witness :
    exceptOk (normalize_match (.jstr "amenity=restaurant")) = true :=
  validate_accept_implies_matches_normalize
    (.jarr [.jobj [("class", .jstr "good"), ("label", .jstr "Good"),
      ("icon", .jstr "i"), ("matches", .jarr [.jstr "amenity=restaurant"]),
      ("is_fallback", .jbool true)]]) rfl
    (.jobj [("class", .jstr "good"), ("label", .jstr "Good"),
      ("icon", .jstr "i"), ("matches", .jarr [.jstr "amenity=restaurant"]),
      ("is_fallback", .jbool true)]) (List.Mem.head _)
    (.jstr "amenity=restaurant") (List.Mem.head _)

/-- C4 (counterexample).  A rule set whose single category carries the
match predicate `""` is accepted by `validate_category_mapping`, yet that
predicate normalizes to zero (key, value) pairs — refuting both "every
predicate of an accepted rule set yields at least one pair" and "a rule
set containing a zero-pair predicate is rejected". -/
theorem validate_accepts_zero_pair_match :
    exceptOk (validate_category_mapping (.jarr [.jobj
      [("class", .jstr "a"), ("label", .jstr "A"), ("icon", .jstr "i"),
       ("matches", .jarr [.jstr ""]), ("is_fallback", .jbool true)]])) =
      true ∧
    matchesOf (.jobj [("class", .jstr "a"), ("label", .jstr "A"),
      ("icon", .jstr "i"), ("matches", .jarr [.jstr ""]),
      ("is_fallback", .jbool true)]) = [.jstr ""] ∧
    normalize_match (.jstr "") = .ok [] :=
  ⟨rfl, rfl, rfl⟩

end FourMore
